import Mathlib

set_option maxHeartbeats 1000000

namespace BananaCli

/-!  Shallow embedding of the banana-cli request/response translation core
(src/api.ts, src/cli.ts, src/mcp-server.ts, src/types.ts).

Conventions of the embedding:
- JavaScript string truthiness is modelled explicitly: an optional string is
  truthy iff it is present and non-empty (`strTruthy`).
- A JavaScript number that has gone through `parseInt` (or is handed to the
  validator directly) is modelled by `JSNumber`: either NaN or a rational.
- `Buffer.from(s, "base64")` is modelled by the injective constructor
  `Buffer.mk`; the claims under study never inspect decoded bytes, only
  the origin string and the MIME type travelling with it.
- Node path functions (`dirname`, `basename`, `extname`, `resolve`) are
  embedded with their documented POSIX semantics, including trailing-slash
  stripping, the hidden-file rule of `extname`, and the normalization of
  `.` and `..` performed by `resolve`.
- `Date.now()` is modelled by an explicit clock sample passed to each call
  that performs the sampling in the source.
-/

/-- A JavaScript number as it can reach `validateOptions` for the count
field: NaN (what `parseInt` yields on garbage) or an arbitrary numeric
value, modelled as a rational. -/
inductive JSNumber where
  | nan : JSNumber
  | val (q : ℚ) : JSNumber
deriving DecidableEq, Repr

/-- JS truthiness of an optional string: `undefined` and `""` are falsy. -/
def strTruthy : Option String → Bool
  | none => false
  | some s => s ≠ ""

/-! ### Node path module (POSIX semantics) -/

/-- A POSIX path is absolute iff it starts with a forward slash. -/
def isAbsolute (p : String) : Bool :=
  match p.data with
  | [] => false
  | c :: _ => c = '/'

/-- Split a character list on every forward slash (keeping empty pieces),
as the separator scan inside Node path normalization does. -/
def splitOnSlash : List Char → List (List Char)
  | [] => [[]]
  | c :: rest =>
    match splitOnSlash rest with
    | [] => [[c]]
    | s :: ss => if c = '/' then [] :: s :: ss else (c :: s) :: ss

/-- One step of Node `normalizeString`: empty and `.` components vanish,
`..` pops the previous component (kept literally only above the root of a
relative path, dropped above the root of an absolute one), and every other
component is appended. -/
def normStep (allowAbove : Bool) (acc : List (List Char)) (c : List Char) : List (List Char) :=
  if c = [] ∨ c = ['.'] then acc
  else if c = ['.', '.'] then
    if acc ≠ [] ∧ acc.getLast? ≠ some ['.', '.'] then acc.dropLast
    else if allowAbove then acc ++ [c] else acc
  else acc ++ [c]

/-- Join normalized components with single slashes. -/
def joinSegs : List (List Char) → List Char
  | [] => []
  | [s] => s
  | s :: t :: rest => s ++ '/' :: joinSegs (t :: rest)

/-- One right-to-left accumulation step of Node `path.resolve`: once an
absolute prefix is found the remaining arguments are ignored; empty
arguments are skipped. -/
def resolveStep (p : String) (st : String × Bool) : String × Bool :=
  if st.2 then st
  else if p = "" then st
  else (p ++ "/" ++ st.1, isAbsolute p)

/-- Node `path.resolve(paths...)` relative to the current working directory
`cwd` (the implicit final fallback argument), followed by normalization. -/
def jsResolve (cwd : String) (paths : List String) : String :=
  let st1 := paths.foldr resolveStep ("", false)
  let st2 := if st1.2 then st1
             else if cwd = "" then st1
             else (cwd ++ "/" ++ st1.1, isAbsolute cwd)
  let segs := (splitOnSlash st2.1.data).foldl (normStep (!st2.2)) []
  if st2.2 then ⟨'/' :: joinSegs segs⟩
  else if segs = [] then "." else ⟨joinSegs segs⟩

/-- The final path component: strip trailing slashes, then take the run of
non-slash characters at the end.  This is the component both `basename` and
`extname` operate on. -/
def lastComponent (p : String) : String :=
  ⟨((p.data.reverse.dropWhile (fun c => c = '/')).takeWhile (fun c => c ≠ '/')).reverse⟩

/-- Node POSIX `path.extname`: the substring of the last component from its
rightmost dot to its end; empty when there is no dot, when the rightmost
dot is the first character of the component (hidden files), or when the
component is exactly `..`. -/
def extname (p : String) : String :=
  let comp := (lastComponent p).data
  let rev := comp.reverse
  let pre := rev.takeWhile (fun c => c ≠ '.')
  if pre.length = rev.length then ""
  else if rev.drop (pre.length + 1) = [] then ""
  else if comp = ['.', '.'] then ""
  else ⟨'.' :: pre.reverse⟩

/-- Node POSIX `path.basename(p, suffix)`: the last component of `p`, with
`suffix` removed when it is a proper suffix of that component; `p` equal to
the suffix yields the empty string. -/
def basenameSuffix (p : String) (suffix : String) : String :=
  if suffix ≠ "" ∧ suffix.length ≤ p.length then
    if suffix = p then ""
    else
      let b := lastComponent p
      if b.data.reverse.take suffix.length = suffix.data.reverse ∧ suffix.length < b.length then
        ⟨b.data.take (b.length - suffix.length)⟩
      else b
  else lastComponent p

/-- Node POSIX `path.dirname`. -/
def dirname (p : String) : String :=
  if p = "" then "."
  else
    let rev2 := (p.data.reverse.dropWhile (fun c => c = '/')).dropWhile (fun c => c ≠ '/')
    if rev2.length ≤ 1 then (if isAbsolute p then "/" else ".")
    else if isAbsolute p ∧ rev2.length = 2 then "//"
    else ⟨p.data.take (rev2.length - 1)⟩

/-! ### Data model (src/types.ts) -/

/-- Decoded binary payload; `Buffer.from(s, "base64")` is `Buffer.mk s`. -/
structure Buffer where
  base64 : String
deriving DecidableEq, Repr

/-- Input image for image-to-image generation. -/
structure InputImage where
  data : String
  mimeType : String
deriving DecidableEq, Repr

/-- The ten supported aspect ratio strings, as a closed type. -/
inductive AspectRatio where
  | r1x1 | r2x3 | r3x2 | r3x4 | r4x3 | r4x5 | r5x4 | r9x16 | r16x9 | r21x9
deriving DecidableEq, Repr

/-- The three supported image size strings, as a closed type. -/
inductive ImageSize where
  | s1K | s2K | s4K
deriving DecidableEq, Repr

/-- Options accepted by `generateImage` (interface ImageGenerationOptions). -/
structure ImageGenerationOptions where
  prompt : String
  apiKey : String
  model : Option String
  aspectRatio : Option AspectRatio
  imageSize : Option ImageSize
  outputPath : Option String
  numberOfImages : Option JSNumber
  inputImage : Option InputImage
deriving DecidableEq, Repr

/-- Inline base64 payload of a content part. -/
structure InlineData where
  mimeType : String
  data : String
deriving DecidableEq, Repr

/-- A content part of a request or response (interface ContentPart); a
response part may carry both a text and an inline-data field. -/
structure ContentPart where
  text : Option String
  inlineData : Option InlineData
deriving DecidableEq, Repr

/-- Content block (interface Content). -/
structure Content where
  parts : List ContentPart
  role : Option String
deriving DecidableEq, Repr

/-- Image configuration sub-block of the request. -/
structure ImageConfig where
  aspectRatio : Option AspectRatio
  imageSize : Option ImageSize
deriving DecidableEq, Repr

/-- Generation configuration block of the request. -/
structure GenerationConfig where
  responseModalities : List String
  imageConfig : Option ImageConfig
deriving DecidableEq, Repr

/-- Vendor request body (interface GenerateContentRequest). -/
structure GenerateContentRequest where
  contents : List Content
  generationConfig : GenerationConfig
deriving DecidableEq, Repr

/-- One candidate of the vendor response. -/
structure Candidate where
  content : Content
  finishReason : Option String
  index : Option Int
deriving DecidableEq, Repr

/-- Prompt feedback block of the vendor response. -/
structure PromptFeedback where
  blockReason : Option String
deriving DecidableEq, Repr

/-- Vendor error object of the response body. -/
structure ApiError where
  code : Int
  message : String
  status : String
deriving DecidableEq, Repr

/-- Parsed vendor response body (interface GenerateContentResponse). -/
structure GenerateContentResponse where
  candidates : Option (List Candidate)
  promptFeedback : Option PromptFeedback
  error : Option ApiError
deriving DecidableEq, Repr

/-- One produced image artifact: decoded bytes plus declared MIME type. -/
structure ImageArtifact where
  data : Buffer
  mimeType : String
deriving DecidableEq, Repr

/-- Result of `generateImage` (interface GenerationResult).  Fields absent
on the JS object are `none`. -/
structure GenerationResult where
  success : Bool
  images : Option (List ImageArtifact)
  text : Option String
  error : Option String
deriving DecidableEq, Repr

/-- CLI options produced by `parseOptions` (interface CLIOptions).  The
enumerated fields are plain strings here because `parseOptions` casts raw
command-line strings without checking membership. -/
structure CLIOptions where
  prompt : Option String
  key : Option String
  output : Option String
  model : Option String
  aspectRatio : Option String
  size : Option String
  count : Option JSNumber
  image : Option String
deriving DecidableEq, Repr

/-! ### src/api.ts -/

/-- Base URL constant of the API. -/
def API_BASE_URL : String := "https://generativelanguage.googleapis.com/v1beta/models"

/-- Model catalogue entry. -/
structure ModelInfo where
  value : String
  description : String
deriving DecidableEq, Repr

/-- AVAILABLE_MODELS of src/api.ts. -/
def AVAILABLE_MODELS : List ModelInfo :=
  [⟨"gemini-2.0-flash-exp", "Gemini 2.0 Flash (experimental) - Fast, general-purpose"⟩,
   ⟨"imagen-3.0-generate-002", "Imagen 3 - High quality image generation"⟩]

/-- AVAILABLE_ASPECT_RATIOS of src/api.ts. -/
def AVAILABLE_ASPECT_RATIOS : List String :=
  ["1:1", "2:3", "3:2", "3:4", "4:3", "4:5", "5:4", "9:16", "16:9", "21:9"]

/-- AVAILABLE_IMAGE_SIZES of src/api.ts. -/
def AVAILABLE_IMAGE_SIZES : List String := ["1K", "2K", "4K"]

/-- validateApiKey of src/api.ts; the argument is the possibly-missing key
and `!apiKey` also catches the empty string. -/
def validateApiKey : Option String → Option String
  | none => some "API key is required. Set GEMINI_API_KEY environment variable or use -k/--key option."
  | some k =>
    if k = "" then some "API key is required. Set GEMINI_API_KEY environment variable or use -k/--key option."
    else if k.length < 10 then some "API key appears to be invalid (too short)."
    else none

/-- getExtensionForMimeType of src/api.ts: fixed four-entry map with a
`.png` default. -/
def getExtensionForMimeType (mimeType : String) : String :=
  if mimeType = "image/png" then ".png"
  else if mimeType = "image/jpeg" then ".jpg"
  else if mimeType = "image/webp" then ".webp"
  else if mimeType = "image/gif" then ".gif"
  else ".png"

/-- The target URL built by `generateImage`: base path, model identifier
(defaulted through destructuring, which fires only on `undefined`), and the
fixed method suffix. -/
def buildUrl (o : ImageGenerationOptions) : String :=
  API_BASE_URL ++ "/" ++ o.model.getD "gemini-2.0-flash-exp" ++ ":generateContent"

/-- The body-construction phase of `generateImage`: text part first, one
inline-data part appended when an input image is present, and the
image-configuration sub-block attached only when aspect ratio or size is
supplied. -/
def buildRequestBody (o : ImageGenerationOptions) : GenerateContentRequest :=
  let parts : List ContentPart :=
    { text := some o.prompt, inlineData := none } ::
      (match o.inputImage with
       | some ii => [{ text := none, inlineData := some { mimeType := ii.mimeType, data := ii.data } }]
       | none => [])
  { contents := [{ parts := parts, role := none }],
    generationConfig :=
      { responseModalities := ["TEXT", "IMAGE"],
        imageConfig :=
          if o.aspectRatio.isSome ∨ o.imageSize.isSome then
            some { aspectRatio := o.aspectRatio, imageSize := o.imageSize }
          else none } }

/-- One step of the response scan of `generateImage`: an inline-data part
appends a decoded image, a truthy (non-empty) text part overwrites the
accompanying text. -/
def scanStep (st : List ImageArtifact × Option String) (p : ContentPart) :
    List ImageArtifact × Option String :=
  let imgs := match p.inlineData with
    | some d => st.1 ++ [{ data := ⟨d.data⟩, mimeType := d.mimeType }]
    | none => st.1
  let txt := match p.text with
    | some s => if s ≠ "" then some s else st.2
    | none => st.2
  (imgs, txt)

/-- The double loop of `generateImage` over all candidates and their parts. -/
def scanResponse (cands : List Candidate) : List ImageArtifact × Option String :=
  cands.foldl (fun st c => c.content.parts.foldl scanStep st) ([], none)

/-- Truthiness of `data.promptFeedback?.blockReason`. -/
def blockTruthy (data : GenerateContentResponse) : Bool :=
  match data.promptFeedback with
  | some pf => match pf.blockReason with
    | some r => r ≠ ""
    | none => false
  | none => false

/-- The string interpolated into the blocked-content message. -/
def blockReasonRaw (data : GenerateContentResponse) : String :=
  match data.promptFeedback with
  | some pf => match pf.blockReason with
    | some r => r
    | none => ""
  | none => ""

/-- The empty-candidates failure object. -/
def noCandidatesResult : GenerationResult :=
  { success := false, images := none, text := none,
    error := some "No candidates returned from API" }

/-- The candidate-scanning tail of `generateImage`, applicable once the
HTTP status is OK and no block reason is present. -/
def interpretCandidates (data : GenerateContentResponse) : GenerationResult :=
  match data.candidates with
  | none => noCandidatesResult
  | some [] => noCandidatesResult
  | some (c :: cs) =>
    let st := scanResponse (c :: cs)
    if st.1.length = 0 then
      { success := false, images := none, text := st.2,
        error := some "No images generated. The API returned only text." }
    else
      { success := true, images := some st.1, text := st.2, error := none }

/-- The response-interpretation phase of `generateImage`, as a function of
the HTTP ok flag, status, status text and parsed JSON body.  The message of
the non-OK branch is `data.error?.message || "HTTP <status>: <statusText>"`,
so an absent or empty vendor message falls back to the synthesized form. -/
def interpretResponse (ok : Bool) (status : Nat) (statusText : String)
    (data : GenerateContentResponse) : GenerationResult :=
  if ok = false then
    { success := false, images := none, text := none,
      error := some (match data.error with
        | some e =>
          if e.message ≠ "" then e.message
          else "HTTP " ++ Nat.repr status ++ ": " ++ statusText
        | none => "HTTP " ++ Nat.repr status ++ ": " ++ statusText) }
  else if blockTruthy data then
    { success := false, images := none, text := none,
      error := some ("Content blocked: " ++ blockReasonRaw data) }
  else interpretCandidates data

/-- The outcome of the single HTTP call, as consumed by `generateImage`. -/
structure FetchOutcome where
  ok : Bool
  status : Nat
  statusText : String
  data : GenerateContentResponse
deriving DecidableEq, Repr

/-- generateImage of src/api.ts with the network abstracted: the vendor
response is an input, and the result is its interpretation.  The request
body and URL it would send are `buildRequestBody` and `buildUrl`. -/
def generateImageModel (o : ImageGenerationOptions) (f : FetchOutcome) : GenerationResult :=
  let _requestBody := buildRequestBody o
  let _url := buildUrl o
  interpretResponse f.ok f.status f.statusText f.data

/-! ### src/cli.ts -/

/-- validateOptions of src/cli.ts.  Checks run in order and short-circuit;
enumerated fields are skipped when falsy (absent or empty); the count check
is `isNaN(count) || count < 1 || count > 4` and performs no integrality
test. -/
def countInvalid : JSNumber → Bool
  | JSNumber.nan => true
  | JSNumber.val q => q < 1 ∨ q > 4

/-- JavaScript `String.prototype.trim`: strip leading and trailing
whitespace (modelled on character lists so that it evaluates inside the
kernel). -/
def jsTrim (s : String) : String :=
  ⟨((s.data.dropWhile Char.isWhitespace).reverse.dropWhile Char.isWhitespace).reverse⟩

/-- The prompt check of validateOptions: `!options.prompt` catches an
absent or empty prompt, and a whitespace-only prompt is also rejected. -/
def promptMissing (o : CLIOptions) : Bool :=
  match o.prompt with
  | none => true
  | some p => p == "" || jsTrim p == ""

/-- The model check: fires only for a truthy model outside the catalogue. -/
def modelBad (o : CLIOptions) : Bool :=
  match o.model with
  | some m => m != "" && !((AVAILABLE_MODELS.map ModelInfo.value).contains m)
  | none => false

/-- The aspect-ratio check: fires only for a truthy ratio outside the set. -/
def aspectRatioBad (o : CLIOptions) : Bool :=
  match o.aspectRatio with
  | some a => a != "" && !(AVAILABLE_ASPECT_RATIOS.contains a)
  | none => false

/-- The size check: fires only for a truthy size outside the set. -/
def sizeBad (o : CLIOptions) : Bool :=
  match o.size with
  | some s => s != "" && !(AVAILABLE_IMAGE_SIZES.contains s)
  | none => false

/-- The count check: fires when a count is set and is NaN or out of range. -/
def countBad (o : CLIOptions) : Bool :=
  match o.count with
  | some c => countInvalid c
  | none => false

/-- validateOptions of src/cli.ts (see `countInvalid` for the count test). -/
def validateOptions (o : CLIOptions) : Option String :=
  if promptMissing o then
    some "Prompt is required. Use -i or --input to specify a prompt."
  else if modelBad o then
    some ("Invalid model. Available models: " ++ String.intercalate ", " (AVAILABLE_MODELS.map ModelInfo.value))
  else if aspectRatioBad o then
    some ("Invalid aspect ratio. Available ratios: " ++ String.intercalate ", " AVAILABLE_ASPECT_RATIOS)
  else if sizeBad o then
    some ("Invalid size. Available sizes: " ++ String.intercalate ", " AVAILABLE_IMAGE_SIZES)
  else if countBad o then
    some "Count must be a number between 1 and 4."
  else none

/-- generateOutputFilename of src/cli.ts.  `now` is the `Date.now()` sample
taken inside this very call; `cwd` is `process.cwd()`. -/
def generateOutputFilename (cwd : String) (now : Nat) (outputPath : Option String)
    (index : Nat) (mimeType : String) : String :=
  let extension := getExtensionForMimeType mimeType
  if strTruthy outputPath then
    let op := outputPath.getD ""
    let dir := dirname op
    let base := basenameSuffix op (extname op)
    let ext := if extname op ≠ "" then extname op else extension
    if index = 0 then jsResolve cwd [dir, base ++ ext]
    else jsResolve cwd [dir, base ++ "_" ++ Nat.repr (index + 1) ++ ext]
  else
    if index = 0 then jsResolve cwd [cwd, "generated_" ++ Nat.repr now ++ extension]
    else jsResolve cwd [cwd, "generated_" ++ Nat.repr now ++ "_" ++ Nat.repr (index + 1) ++ extension]

/-- Conversion of a validated aspect-ratio string to the closed type; the
empty string (falsy, skipped by both the validator and the body builder)
maps to `none`. -/
def parseAspectRatio (s : String) : Option AspectRatio :=
  if s = "1:1" then some AspectRatio.r1x1
  else if s = "2:3" then some AspectRatio.r2x3
  else if s = "3:2" then some AspectRatio.r3x2
  else if s = "3:4" then some AspectRatio.r3x4
  else if s = "4:3" then some AspectRatio.r4x3
  else if s = "4:5" then some AspectRatio.r4x5
  else if s = "5:4" then some AspectRatio.r5x4
  else if s = "9:16" then some AspectRatio.r9x16
  else if s = "16:9" then some AspectRatio.r16x9
  else if s = "21:9" then some AspectRatio.r21x9
  else none

/-- Conversion of a validated size string to the closed type. -/
def parseImageSize (s : String) : Option ImageSize :=
  if s = "1K" then some ImageSize.s1K
  else if s = "2K" then some ImageSize.s2K
  else if s = "4K" then some ImageSize.s4K
  else none

/-- `options.key || process.env.GEMINI_API_KEY` with JS truthiness. -/
def jsOrKey (k : Option String) (envKey : Option String) : Option String :=
  match k with
  | some s => if s ≠ "" then some s else envKey
  | none => envKey

/-- The ambient effects available to one `run` invocation: working
directory, environment credential, the filesystem read of an input image
(`none` models a missing file), the per-call `Date.now()` samples of the
save loop, and the outcome of the single HTTP call. -/
structure RunEnv where
  cwd : String
  envKey : Option String
  readImage : String → Option InputImage
  clock : Nat → Nat
  fetch : FetchOutcome

/-- Externally visible outcome of one `run` invocation: the exit code, the
request issued to the network (none when no HTTP call was made), and the
paths written, in order.  Filesystem writes are modelled as succeeding. -/
structure RunEffects where
  exitCode : Nat
  request : Option (String × GenerateContentRequest)
  savedPaths : List String

/-- run of src/cli.ts, from parsed options onward: credential resolution,
key validation, option validation, input-image loading, the single
`generateImage` call, and the save loop that names each image with a fresh
`generateOutputFilename` call (hence a fresh clock sample per index). -/
def runModel (env : RunEnv) (o : CLIOptions) : RunEffects :=
  let apiKey := jsOrKey o.key env.envKey
  match validateApiKey apiKey with
  | some _ => { exitCode := 1, request := none, savedPaths := [] }
  | none =>
    match validateOptions o with
    | some _ => { exitCode := 1, request := none, savedPaths := [] }
    | none =>
      let loaded : Option (Option InputImage) :=
        match o.image with
        | some ip =>
          if ip ≠ "" then
            match env.readImage ip with
            | some ii => some (some ii)
            | none => none
          else some none
        | none => some none
      match loaded with
      | none => { exitCode := 1, request := none, savedPaths := [] }
      | some inputImage =>
        let genOpts : ImageGenerationOptions :=
          { prompt := o.prompt.getD "", apiKey := apiKey.getD "",
            model := o.model,
            aspectRatio := match o.aspectRatio with
              | some a => parseAspectRatio a
              | none => none,
            imageSize := match o.size with
              | some s => parseImageSize s
              | none => none,
            outputPath := none,
            numberOfImages := o.count,
            inputImage := inputImage }
        let req := (buildUrl genOpts, buildRequestBody genOpts)
        let result := generateImageModel genOpts env.fetch
        if result.success = false then { exitCode := 1, request := some req, savedPaths := [] }
        else
          match result.images with
          | none => { exitCode := 1, request := some req, savedPaths := [] }
          | some imgs =>
            if imgs.length = 0 then { exitCode := 1, request := some req, savedPaths := [] }
            else
              { exitCode := 0, request := some req,
                savedPaths := imgs.enum.map
                  (fun p => generateOutputFilename env.cwd (env.clock p.1) o.output p.1 p.2.mimeType) }

/-! ### src/mcp-server.ts -/

/-- getApiKey of src/mcp-server.ts: `none` models the thrown error. -/
def getApiKeyMcp (envKey : Option String) : Option String :=
  match envKey with
  | some k => if k ≠ "" then some k else none
  | none => none

/-- generateOutputPath of src/mcp-server.ts: a user path is resolved
against the working directory unchanged; otherwise a timestamped name is
generated. -/
def generateOutputPathMcp (cwd : String) (now : Nat) (outputPath : Option String)
    (mimeType : String) : String :=
  if strTruthy outputPath then jsResolve cwd [cwd, outputPath.getD ""]
  else jsResolve cwd [cwd, "generated_" ++ Nat.repr now ++ getExtensionForMimeType mimeType]

/-- Externally visible outcome of one MCP tool call: files written and
whether the error path was taken. -/
structure McpEffects where
  wrote : List String
  isError : Bool
deriving DecidableEq, Repr

/-- handleGenerateImage of src/mcp-server.ts: on success, exactly the first
image of the result is saved. -/
def handleGenerateImageModel (cwd : String) (now : Nat) (envKey : Option String)
    (prompt : String) (output : Option String) (model : Option String)
    (aspectRatio : Option AspectRatio) (size : Option ImageSize)
    (f : FetchOutcome) : McpEffects :=
  match getApiKeyMcp envKey with
  | none => { wrote := [], isError := true }
  | some key =>
    let result := generateImageModel
      { prompt := prompt, apiKey := key, model := model,
        aspectRatio := aspectRatio, imageSize := size,
        outputPath := none, numberOfImages := none, inputImage := none } f
    if result.success = false then { wrote := [], isError := true }
    else
      match result.images with
      | none => { wrote := [], isError := true }
      | some [] => { wrote := [], isError := true }
      | some (img0 :: _) =>
        { wrote := [generateOutputPathMcp cwd now output img0.mimeType], isError := false }

/-- handleModifyImage of src/mcp-server.ts: loads the input image (the
filesystem is the `readImage` oracle), then behaves like the generate
handler, saving exactly the first image. -/
def handleModifyImageModel (cwd : String) (now : Nat) (envKey : Option String)
    (prompt : String) (inputImagePath : String) (output : Option String)
    (model : Option String) (readImage : String → Option InputImage)
    (f : FetchOutcome) : McpEffects :=
  match getApiKeyMcp envKey with
  | none => { wrote := [], isError := true }
  | some key =>
    match readImage inputImagePath with
    | none => { wrote := [], isError := true }
    | some ii =>
      let result := generateImageModel
        { prompt := prompt, apiKey := key, model := model,
          aspectRatio := none, imageSize := none,
          outputPath := none, numberOfImages := none, inputImage := some ii } f
      if result.success = false then { wrote := [], isError := true }
      else
        match result.images with
        | none => { wrote := [], isError := true }
        | some [] => { wrote := [], isError := true }
        | some (img0 :: _) =>
          { wrote := [generateOutputPathMcp cwd now output img0.mimeType], isError := false }

/-! ### Specification-side definitions, used to state the claims -/

/-- A part contributes its text to the accompanying text only when that
text is present and non-empty. -/
def nonEmptyTextOf (p : ContentPart) : Option String :=
  match p.text with
  | some s => if s = "" then none else some s
  | none => none

/-- The image an inline-data part contributes. -/
def imageOf (p : ContentPart) : Option ImageArtifact :=
  p.inlineData.map (fun d => { data := ⟨d.data⟩, mimeType := d.mimeType })

/-- All parts of all candidates, in traversal order. -/
def allParts (cands : List Candidate) : List ContentPart :=
  (cands.map (fun c => c.content.parts)).flatten

/-- The images collected by the scan, in encounter order. -/
def specImagesOf (cands : List Candidate) : List ImageArtifact :=
  (allParts cands).filterMap imageOf

/-- The accompanying text: the last non-empty text part seen. -/
def specTextOf (cands : List Candidate) : Option String :=
  ((allParts cands).filterMap nonEmptyTextOf).getLast?

/-- The vendor-provided error message, when present and non-empty. -/
def vendorMessage (d : GenerateContentResponse) : Option String :=
  match d.error with
  | some e => if e.message = "" then none else some e.message
  | none => none

/-- The block reason, when present and non-empty. -/
def blockReasonOf (d : GenerateContentResponse) : Option String :=
  match d.promptFeedback with
  | some pf =>
    match pf.blockReason with
    | some r => if r = "" then none else some r
    | none => none
  | none => none

/-- The synthesized HTTP failure message. -/
def httpStatusMessage (status : Nat) (statusText : String) : String :=
  "HTTP " ++ Nat.repr status ++ ": " ++ statusText

/-- Modelled from the spec (section 4.3, decision order of the Response
Interpreter), amended for JS truthiness: the vendor message and the block
reason count as present only when non-empty.  First match wins: non-OK
status, block reason, empty candidate list, text-only scan, success. -/
def interpreterSpec (ok : Bool) (status : Nat) (statusText : String)
    (data : GenerateContentResponse) : GenerationResult :=
  if ok = false then
    { success := false, images := none, text := none,
      error := some ((vendorMessage data).getD (httpStatusMessage status statusText)) }
  else if (blockReasonOf data).isSome then
    { success := false, images := none, text := none,
      error := some ("Content blocked: " ++ (blockReasonOf data).getD "") }
  else if (data.candidates.getD []).isEmpty then
    { success := false, images := none, text := none,
      error := some "No candidates returned from API" }
  else
    let cands := data.candidates.getD []
    if (specImagesOf cands).isEmpty then
      { success := false, images := none, text := specTextOf cands,
        error := some "No images generated. The API returned only text." }
    else
      { success := true, images := some (specImagesOf cands),
        text := specTextOf cands, error := none }

/-- The base-name part of the Artifact Namer output: the user path with
its extension removed when a user path is given, else the timestamped
generated name. -/
def namerBase (t : Nat) (outputPath : Option String) : String :=
  if strTruthy outputPath then
    basenameSuffix (outputPath.getD "") (extname (outputPath.getD ""))
  else "generated_" ++ Nat.repr t

/-- The extension part of the Artifact Namer output: the user path
extension when present, else the MIME-implied extension. -/
def namerExt (outputPath : Option String) (mimeType : String) : String :=
  if strTruthy outputPath then
    (if extname (outputPath.getD "") ≠ "" then extname (outputPath.getD "")
     else getExtensionForMimeType mimeType)
  else getExtensionForMimeType mimeType

/-- The timestamp component of a generated file name: the digit run that
follows the ten characters of the leading marker of the last component. -/
def timestampComponent (p : String) : String :=
  ⟨((lastComponent p).data.drop 10).takeWhile (fun c => c.isDigit)⟩

/-! ### Concrete instances used by counterexamples and witnesses -/

/-- Parts list with an image, the text "hello" and the empty text "". -/
def cexParts : List ContentPart :=
  [⟨none, some ⟨"image/png", "QUFB"⟩⟩, ⟨some "hello", none⟩, ⟨some "", none⟩]

/-- The single candidate carrying `cexParts`. -/
def cexCands : List Candidate := [⟨⟨cexParts, none⟩, none, none⟩]

/-- An OK response body whose last text part is the empty string. -/
def cexResponse : GenerateContentResponse := ⟨some cexCands, none, none⟩

/-- A response body carrying a vendor error object with an empty message. -/
def cexEmptyMsgResponse : GenerateContentResponse :=
  ⟨none, none, some ⟨500, "", "INTERNAL"⟩⟩

/-- CLI options with a blank prompt. -/
def blankPromptOptions : CLIOptions :=
  ⟨some "", none, none, none, none, none, none, none⟩

/-- CLI options with a valid prompt and the non-integer count 5/2. -/
def halfCountOptions : CLIOptions :=
  ⟨some "p", none, none, none, none, none, some (JSNumber.val (mkRat 5 2)), none⟩

/-- A benign concrete run environment. -/
def sampleEnv : RunEnv :=
  ⟨"/w", some "0123456789A", fun _ => none, fun _ => 0,
   ⟨true, 200, "OK", ⟨none, none, none⟩⟩⟩

/-- An OK response carrying two images (one candidate, two inline parts). -/
def twoImageResponse : GenerateContentResponse :=
  ⟨some [⟨⟨[⟨none, some ⟨"image/png", "QUFB"⟩⟩,
            ⟨none, some ⟨"image/jpeg", "QkJC"⟩⟩], none⟩, none, none⟩],
   none, none⟩

/-- The fetch outcome delivering `twoImageResponse`. -/
def twoImageFetch : FetchOutcome := ⟨true, 200, "OK", twoImageResponse⟩

/-- A run environment whose single HTTP call yields two images and whose
clock advances between namer calls. -/
def twoImageEnv : RunEnv :=
  ⟨"/w", some "0123456789A", fun _ => some ⟨"QUFB", "image/png"⟩,
   fun i => 1000 + i, twoImageFetch⟩

/-- Valid CLI options carrying their own key. -/
def plainOptions : CLIOptions :=
  ⟨some "p", some "0123456789A", none, none, none, none, none, none⟩

/-!  ## Lemmas and claim theorems -/

theorem getLast?_cons_getD {α : Type} (a : α) (l : List α) :
    (a :: l).getLast? = some (l.getLast?.getD a) := by
  induction l generalizing a with
  | nil => rfl
  | cons b l ih => rw [List.getLast?_cons_cons, ih]; cases hl : l.getLast? <;> simp [ih, hl]

theorem or_getLast?_cons {α : Type} (a : α) (l : List α) (d : Option α) :
    ((a :: l).getLast?).or d = (l.getLast?).or (some a) := by
  rw [getLast?_cons_getD]
  cases hl : l.getLast? <;> simp [Option.or, hl]

theorem scan_foldl_eq (ps : List ContentPart) :
    ∀ st : List ImageArtifact × Option String,
      ps.foldl scanStep st =
        (st.1 ++ ps.filterMap imageOf,
         ((ps.filterMap nonEmptyTextOf).getLast?).or st.2) := by
  induction ps with
  | nil => intro st; simp [Option.or]
  | cons p ps ih =>
    intro st
    rw [List.foldl_cons, ih]
    refine Prod.ext ?_ ?_
    · show (scanStep st p).1 ++ ps.filterMap imageOf = st.1 ++ (p :: ps).filterMap imageOf
      cases hinl : p.inlineData <;>
        simp [scanStep, imageOf, hinl, List.filterMap_cons]
    · show ((ps.filterMap nonEmptyTextOf).getLast?).or (scanStep st p).2
          = (((p :: ps).filterMap nonEmptyTextOf).getLast?).or st.2
      cases htxt : p.text with
      | none =>
        have h1 : nonEmptyTextOf p = none := by simp [nonEmptyTextOf, htxt]
        have h2 : (scanStep st p).2 = st.2 := by simp [scanStep, htxt]
        rw [List.filterMap_cons, h1, h2]
      | some s =>
        by_cases hs : s = ""
        · have h1 : nonEmptyTextOf p = none := by simp [nonEmptyTextOf, htxt, hs]
          have h2 : (scanStep st p).2 = st.2 := by simp [scanStep, htxt, hs]
          rw [List.filterMap_cons, h1, h2]
        · have h1 : nonEmptyTextOf p = some s := by simp [nonEmptyTextOf, htxt, hs]
          have h2 : (scanStep st p).2 = some s := by simp [scanStep, htxt, hs]
          rw [List.filterMap_cons]
          simp only [h1]
          rw [or_getLast?_cons, h2]

theorem scanResponse_eq (cands : List Candidate) :
    scanResponse cands = (specImagesOf cands, specTextOf cands) := by
  have h1 : scanResponse cands = (allParts cands).foldl scanStep ([], none) := by
    simp only [scanResponse, allParts, List.foldl_flatten, List.foldl_map]
  rw [h1, scan_foldl_eq, List.nil_append, Option.or_none]
  rfl

theorem interpretCandidates_eq_spec (data : GenerateContentResponse) :
    interpretCandidates data =
      (if (data.candidates.getD []).isEmpty then
        { success := false, images := none, text := none,
          error := some "No candidates returned from API" }
       else if (specImagesOf (data.candidates.getD [])).isEmpty then
        { success := false, images := none, text := specTextOf (data.candidates.getD []),
          error := some "No images generated. The API returned only text." }
       else
        { success := true, images := some (specImagesOf (data.candidates.getD [])),
          text := specTextOf (data.candidates.getD []), error := none }) := by
  cases hc : data.candidates with
  | none => simp [interpretCandidates, noCandidatesResult, hc]
  | some cands =>
    cases cands with
    | nil => simp [interpretCandidates, noCandidatesResult, hc]
    | cons c cs =>
      simp only [interpretCandidates, hc, scanResponse_eq, Option.getD_some,
        List.isEmpty_cons, Bool.false_eq_true, if_false]
      by_cases hi : specImagesOf (c :: cs) = []
      · simp [hi]
      · simp [hi, List.isEmpty_iff, List.length_eq_zero]

/-- C5 (amended): the Response Interpreter equals, branch for branch and in
first-match order, the specification interpreter: a non-OK status yields
the vendor message when one is present and non-empty, else the synthesized
HTTP-status message (an empty vendor message falls back to the synthesized
form); a present non-empty block reason yields the blocked message; a
missing or empty candidate list yields the no-candidates message; a scan
collecting zero images yields the text-only failure with the accompanying
text still attached; otherwise success. -/
theorem c5_interpreter_branches (ok : Bool) (status : Nat) (statusText : String)
    (data : GenerateContentResponse) :
    interpretResponse ok status statusText data = interpreterSpec ok status statusText data := by
  have hb : blockTruthy data = (blockReasonOf data).isSome := by
    cases hpf : data.promptFeedback with
    | none => simp [blockTruthy, blockReasonOf, hpf]
    | some pf =>
      cases hbr : pf.blockReason with
      | none => simp [blockTruthy, blockReasonOf, hpf, hbr]
      | some r =>
        by_cases hr : r = "" <;> simp [blockTruthy, blockReasonOf, hpf, hbr, hr]
  have hr : blockTruthy data = true → blockReasonRaw data = (blockReasonOf data).getD "" := by
    intro h
    cases hpf : data.promptFeedback with
    | none => simp [blockTruthy, hpf] at h
    | some pf =>
      cases hbr : pf.blockReason with
      | none => simp [blockTruthy, hpf, hbr] at h
      | some r =>
        by_cases hrr : r = ""
        · simp [blockTruthy, hpf, hbr, hrr] at h
        · simp [blockReasonRaw, blockReasonOf, hpf, hbr, hrr]
  cases ok with
  | false =>
    cases he : data.error with
    | none => simp [interpretResponse, interpreterSpec, vendorMessage, he, httpStatusMessage]
    | some e =>
      by_cases hm : e.message = "" <;>
        simp [interpretResponse, interpreterSpec, vendorMessage, he, hm, httpStatusMessage]
  | true =>
    cases hbt : blockTruthy data with
    | true =>
      have hbs : (blockReasonOf data).isSome = true := by rw [← hb]; exact hbt
      simp [interpretResponse, interpreterSpec, hbt, hbs, hr hbt]
    | false =>
      have hbs : (blockReasonOf data).isSome = false := by rw [← hb]; exact hbt
      simp only [interpretResponse, interpreterSpec, hbt, hbs, Bool.true_eq_false,
        Bool.false_eq_true, if_false]
      exact interpretCandidates_eq_spec data

/-- C5 (counterexample to the claim as stated): a non-OK response whose
body carries a vendor error object with an empty message string is
reported with the synthesized HTTP message, not the vendor-provided one. -/
theorem c5_empty_vendor_message_counterexample :
    (interpretResponse false 500 "Internal Server Error" cexEmptyMsgResponse).error
      = some "HTTP 500: Internal Server Error" ∧
    cexEmptyMsgResponse.error = some ⟨500, "", "INTERNAL"⟩ ∧
    "HTTP 500: Internal Server Error" ≠ "" :=
  ⟨by decide, by decide, by decide⟩

/-- C4 (counterexample to the claim as stated): the last text part of the
scan is the empty string, yet the accompanying text attached to the result
is the earlier "hello" — the JS truthiness test skips the empty part, so
last-write-wins does not extend to empty strings. -/
theorem c4_empty_text_counterexample :
    (cexParts.filterMap ContentPart.text).getLast? = some "" ∧
    (interpretResponse true 200 "OK" cexResponse).text = some "hello" ∧
    (some "hello" : Option String) ≠ some "" :=
  ⟨by decide, by decide, by decide⟩

/-- C4 (amended): for an OK response with candidates and no (truthy) block
reason, the scan visits all candidates' parts in order; the image list
preserves encounter order, and the accompanying text attached to the
result is the last seen non-empty text part — an empty-string text part is
skipped by the truthiness test and never overwrites. -/
theorem c4_last_text_wins (status : Nat) (statusText : String)
    (data : GenerateContentResponse) (cands : List Candidate)
    (h1 : data.candidates = some cands) (h2 : cands ≠ [])
    (h3 : blockTruthy data = false) :
    (interpretResponse true status statusText data).text = specTextOf cands ∧
    (interpretResponse true status statusText data).images
      = (if specImagesOf cands = [] then none else some (specImagesOf cands)) ∧
    scanResponse cands = (specImagesOf cands, specTextOf cands) := by
  have hmain : interpretResponse true status statusText data = interpretCandidates data := by
    simp [interpretResponse, h3]
  rw [hmain, interpretCandidates_eq_spec, h1]
  cases cands with
  | nil => exact absurd rfl h2
  | cons c cs =>
    refine ⟨?_, ?_, scanResponse_eq _⟩ <;>
    · by_cases hi : specImagesOf (c :: cs) = [] <;>
        simp [hi, List.isEmpty_iff]

/-- C4 (witness): the amended theorem applied at the concrete response
whose parts are an image, the text "hello" and the empty text "". -/
theorem c4_last_text_wins_witness :
    (interpretResponse true 200 "OK" cexResponse).text = specTextOf cexCands :=
  (c4_last_text_wins 200 "OK" cexResponse cexCands rfl (by decide) (by decide)).1

/-- C3: the Request Translator emits the prompt verbatim as the first and
only text part, appends exactly one inline-data part iff an input image is
present (text before image), always requests both modalities, and attaches
the image-configuration sub-block iff aspect ratio or size was supplied,
with exactly the supplied fields set and the sub-block entirely absent
otherwise. -/
theorem c3_request_body_shape (o : ImageGenerationOptions) :
    (buildRequestBody o).contents.map Content.parts =
      [{ text := some o.prompt, inlineData := none } ::
        (match o.inputImage with
         | some ii => [{ text := none,
                         inlineData := some { mimeType := ii.mimeType, data := ii.data } }]
         | none => [])] ∧
    ((buildRequestBody o).generationConfig.imageConfig.isSome
        = (o.aspectRatio.isSome || o.imageSize.isSome)) ∧
    (buildRequestBody o).generationConfig.imageConfig =
      (if o.aspectRatio.isSome ∨ o.imageSize.isSome then
        some { aspectRatio := o.aspectRatio, imageSize := o.imageSize }
       else none) ∧
    (buildRequestBody o).generationConfig.responseModalities = ["TEXT", "IMAGE"] := by
  refine ⟨rfl, ?_, rfl, rfl⟩
  cases ha : o.aspectRatio <;> cases hs : o.imageSize <;>
    simp [buildRequestBody, ha, hs]

/-- C9: the requested image count is never transmitted: two option records
differing only in numberOfImages produce the same request body, the same
target URL, and, for equal vendor responses, the same result. -/
theorem c9_count_has_no_influence (o : ImageGenerationOptions)
    (n : Option JSNumber) (f : FetchOutcome) :
    buildRequestBody { o with numberOfImages := n } = buildRequestBody o ∧
    buildUrl { o with numberOfImages := n } = buildUrl o ∧
    generateImageModel { o with numberOfImages := n } f = generateImageModel o f :=
  ⟨rfl, rfl, rfl⟩

/-- C8: whenever the Option Validator rejects, the run reports exit code 1
and no network request is ever issued. -/
theorem c8_no_network_on_invalid_options (env : RunEnv) (o : CLIOptions)
    (e : String) (h : validateOptions o = some e) :
    (runModel env o).exitCode = 1 ∧ (runModel env o).request = none := by
  have hrw : runModel env o = { exitCode := 1, request := none, savedPaths := [] } := by
    cases hk : validateApiKey (jsOrKey o.key env.envKey) with
    | some msg => simp [runModel, hk]
    | none => simp [runModel, hk, h]
  rw [hrw]
  exact ⟨rfl, rfl⟩

/-- C8 (witness): a blank prompt at a concrete environment. -/
theorem c8_no_network_on_invalid_options_witness :
    validateOptions blankPromptOptions
      = some "Prompt is required. Use -i or --input to specify a prompt." ∧
    ((runModel sampleEnv blankPromptOptions).exitCode = 1 ∧
     (runModel sampleEnv blankPromptOptions).request = none) :=
  ⟨by decide, c8_no_network_on_invalid_options sampleEnv blankPromptOptions
     "Prompt is required. Use -i or --input to specify a prompt." (by decide)⟩

/-- C1 (counterexample to the claim as stated): the value 5/2 is a
non-integer inside [1,4]; the claim demands the count error for it, but
the validator accepts the configuration, because the code tests only
NaN-ness and the numeric range, never integrality. -/
theorem c1_non_integer_count_accepted :
    validateOptions halfCountOptions = none ∧
    halfCountOptions.count = some (JSNumber.val (mkRat 5 2)) ∧
    (mkRat 5 2).den ≠ 1 ∧ 1 ≤ mkRat 5 2 ∧ mkRat 5 2 ≤ 4 :=
  ⟨by decide, by decide, by decide, by decide, by decide⟩

/-- C1 (amended): for a configuration whose prompt, model, aspect ratio
and size pass their checks and whose count is set, the validator returns
the count error exactly when the count is NaN or lies outside [1,4], and
null otherwise — any numeric value in [1,4] is accepted, integer or not
(integrality of CLI input is enforced upstream by parseInt, which yields
only integers or NaN). -/
theorem c1_count_range_check (o : CLIOptions) (c : JSNumber)
    (hp : promptMissing o = false) (hm : modelBad o = false)
    (ha : aspectRatioBad o = false) (hs : sizeBad o = false)
    (hc : o.count = some c) :
    validateOptions o =
      (if countInvalid c then some "Count must be a number between 1 and 4." else none) := by
  simp only [validateOptions, countBad, hp, hm, ha, hs, hc]
  simp

/-- C1 (witness): the amended theorem applied at the concrete configuration
with count 5/2, which the validator accepts. -/
theorem c1_count_range_check_witness :
    promptMissing halfCountOptions = false ∧
    validateOptions halfCountOptions =
      (if countInvalid (JSNumber.val (mkRat 5 2)) then
        some "Count must be a number between 1 and 4." else none) :=
  ⟨by decide,
   c1_count_range_check halfCountOptions (JSNumber.val (mkRat 5 2))
     (by decide) (by decide) (by decide) (by decide) rfl⟩

/-! ### String and list plumbing for the path lemmas -/

theorem strext {s t : String} (h : s.data = t.data) : s = t := by
  cases s; cases t; exact congrArg String.mk h

theorem strdata_append (s t : String) : (s ++ t).data = s.data ++ t.data := by
  cases s; cases t; rfl

theorem strdata_nil_iff (s : String) : s.data = [] ↔ s = "" := by
  constructor
  · intro h; exact strext (by rw [h])
  · intro h; rw [h]

theorem mem_takeWhile_pred {p : Char → Bool} :
    ∀ (l : List Char) (c : Char), c ∈ l.takeWhile p → p c = true := by
  intro l
  induction l with
  | nil => intro c hc; simp [List.takeWhile] at hc
  | cons a l ih =>
    intro c hc
    by_cases ha : p a = true
    · rw [List.takeWhile_cons_of_pos ha] at hc
      rcases List.mem_cons.mp hc with h | h
      · rw [h]; exact ha
      · exact ih c h
    · rw [List.takeWhile_cons_of_neg (by simpa using ha)] at hc
      simp at hc

theorem takeWhile_append_all {p : Char → Bool} :
    ∀ (xs ys : List Char), (∀ c ∈ xs, p c = true) →
      (xs ++ ys).takeWhile p = xs ++ ys.takeWhile p := by
  intro xs
  induction xs with
  | nil => intro ys _; rfl
  | cons a xs ih =>
    intro ys h
    have ha : p a = true := h a (List.mem_cons_self a xs)
    rw [List.cons_append, List.takeWhile_cons_of_pos ha, ih ys (fun c hc => h c (List.mem_cons_of_mem a hc))]
    rfl

theorem takeWhile_append_stop {p : Char → Bool} (xs : List Char) (y : Char) (ys : List Char)
    (hxs : ∀ c ∈ xs, p c = true) (hy : p y = false) :
    (xs ++ y :: ys).takeWhile p = xs := by
  rw [takeWhile_append_all xs (y :: ys) hxs, List.takeWhile_cons_of_neg (by simp [hy]), List.append_nil]

theorem lastComponent_mk_append (s name : List Char)
    (hne : name ≠ []) (hns : ∀ c ∈ name, c ≠ '/') :
    lastComponent ⟨s ++ '/' :: name⟩ = ⟨name⟩ := by
  unfold lastComponent
  congr 1
  show (((s ++ '/' :: name).reverse.dropWhile fun c => c = '/').takeWhile fun c => c ≠ '/').reverse = name
  have hrev : (s ++ '/' :: name).reverse = name.reverse ++ '/' :: s.reverse := by
    rw [List.reverse_append]
    simp
  rw [hrev]
  cases hn : name.reverse with
  | nil => exact absurd (by simpa using hn) hne
  | cons c cs =>
    have hcmem : c ∈ name := by
      have : c ∈ name.reverse := by rw [hn]; exact List.mem_cons_self c cs
      simpa using this
    have hc : c ≠ '/' := hns c hcmem
    rw [List.cons_append, List.dropWhile_cons_of_neg (by simp [hc]), ← List.cons_append]
    rw [← hn, takeWhile_append_stop name.reverse '/' s.reverse
        (fun x hx => by simpa using hns x (by simpa using hx)) (by simp)]
    simp

theorem splitOnSlash_ne_nil : ∀ l : List Char, splitOnSlash l ≠ [] := by
  intro l
  cases l with
  | nil => simp [splitOnSlash]
  | cons c rest =>
    unfold splitOnSlash
    cases h : splitOnSlash rest with
    | nil => simp
    | cons s ss => by_cases hc : c = '/' <;> simp [hc]

theorem splitOnSlash_append : ∀ (a b : List Char),
    splitOnSlash (a ++ '/' :: b) = splitOnSlash a ++ splitOnSlash b := by
  intro a
  induction a with
  | nil =>
    intro b
    cases hb : splitOnSlash b with
    | nil => exact absurd hb (splitOnSlash_ne_nil b)
    | cons s ss => simp [splitOnSlash, hb]
  | cons c a ih =>
    intro b
    cases ha : splitOnSlash a with
    | nil => exact absurd ha (splitOnSlash_ne_nil a)
    | cons s ss =>
      have e1 : ∀ (d : Char) (rest : List Char), splitOnSlash (d :: rest)
          = (match splitOnSlash rest with
             | [] => [[d]]
             | t :: ts => if d = '/' then [] :: t :: ts else (d :: t) :: ts) := fun _ _ => rfl
      rw [List.cons_append, e1 c (a ++ '/' :: b), ih b, ha, e1 c a, ha]
      by_cases hc : c = '/' <;> simp [hc]

theorem splitOnSlash_no_slash : ∀ (l : List Char), (∀ c ∈ l, c ≠ '/') →
    splitOnSlash l = [l] := by
  intro l
  induction l with
  | nil => intro _; rfl
  | cons c rest ih =>
    intro h
    have hrest := ih (fun x hx => h x (List.mem_cons_of_mem c hx))
    have hc : c ≠ '/' := h c (List.mem_cons_self c rest)
    simp [splitOnSlash, hrest, hc]

theorem joinSegs_concat : ∀ (xs : List (List Char)) (y : List Char), xs ≠ [] →
    joinSegs (xs ++ [y]) = joinSegs xs ++ '/' :: y := by
  intro xs
  induction xs with
  | nil => intro y h; exact absurd rfl h
  | cons a xs ih =>
    intro y _
    cases xs with
    | nil => rfl
    | cons b xs' =>
      show joinSegs (a :: (b :: xs') ++ [y]) = (a ++ '/' :: joinSegs (b :: xs')) ++ '/' :: y
      have : joinSegs (a :: ((b :: xs') ++ [y])) = a ++ '/' :: joinSegs ((b :: xs') ++ [y]) := by
        cases xs' <;> rfl
      rw [List.cons_append, this, ih y (by simp)]
      simp

theorem foldl_normStep_concat (f : Bool) (cs : List (List Char)) (acc : List (List Char))
    (c : List Char) (h1 : c ≠ []) (h2 : c ≠ ['.']) (h3 : c ≠ ['.', '.']) :
    (cs ++ [c]).foldl (normStep f) acc = cs.foldl (normStep f) acc ++ [c] := by
  rw [List.foldl_append]
  simp [normStep, h1, h2, h3]

theorem lastComponent_join_concat (acc0 : List (List Char)) (nd : List Char)
    (hne : nd ≠ []) (hns : ∀ c ∈ nd, c ≠ '/') :
    lastComponent ⟨'/' :: joinSegs (acc0 ++ [nd])⟩ = ⟨nd⟩ := by
  cases acc0 with
  | nil =>
    have h : ('/' :: joinSegs ([] ++ [nd])) = [] ++ '/' :: nd := by simp [joinSegs]
    rw [h]
    exact lastComponent_mk_append [] nd hne hns
  | cons a as =>
    have h : ('/' :: joinSegs ((a :: as) ++ [nd])) = ('/' :: joinSegs (a :: as)) ++ '/' :: nd := by
      rw [joinSegs_concat (a :: as) nd (by simp)]
      rfl
    rw [h]
    exact lastComponent_mk_append _ nd hne hns

theorem join_concat_suffix (acc0 : List (List Char)) (nd : List Char) :
    ∃ s : List Char, ('/' :: joinSegs (acc0 ++ [nd])) = s ++ nd := by
  cases acc0 with
  | nil => exact ⟨['/'], by simp [joinSegs]⟩
  | cons a as =>
    refine ⟨'/' :: joinSegs (a :: as) ++ ['/'], ?_⟩
    rw [joinSegs_concat (a :: as) nd (by simp)]
    simp

theorem jsResolve_abs (cwd d name : String) (hc : isAbsolute cwd = true)
    (hnn : name ≠ "") (hna : isAbsolute name = false) :
    ∃ P : String, jsResolve cwd [d, name]
      = ⟨'/' :: joinSegs ((splitOnSlash (P.data ++ '/' :: (name.data ++ ['/']))).foldl
          (normStep false) [])⟩ := by
  have hcw : cwd ≠ "" := by
    intro h; rw [h] at hc; exact absurd hc (by decide)
  have h0 : ("" : String).data = ([] : List Char) := rfl
  have hsl : ("/" : String).data = ['/'] := rfl
  by_cases hd0 : d = ""
  · refine ⟨cwd, ?_⟩
    have hdata : (cwd ++ "/" ++ (name ++ "/" ++ "")).data
        = cwd.data ++ '/' :: (name.data ++ ['/']) := by
      simp [strdata_append, h0, hsl]
    simp only [jsResolve, List.foldr_cons, List.foldr_nil]
    rw [hd0]
    simp only [resolveStep, if_neg hnn, hna, hc, if_pos rfl, if_neg hcw]
    simp only [Bool.false_eq_true, if_false, Bool.not_true, hdata]
    simp [hc]
  · by_cases hda : isAbsolute d = true
    · refine ⟨d, ?_⟩
      have hdata : (d ++ "/" ++ (name ++ "/" ++ "")).data
          = d.data ++ '/' :: (name.data ++ ['/']) := by
        simp [strdata_append, h0, hsl]
      simp only [jsResolve, List.foldr_cons, List.foldr_nil]
      simp only [resolveStep, if_neg hnn, if_neg hd0, hna, hda, if_pos rfl]
      simp only [Bool.false_eq_true, if_false, Bool.not_true, hdata]
      simp [hda]
    · refine ⟨cwd ++ "/" ++ d, ?_⟩
      have hdb : isAbsolute d = false := by
        cases h : isAbsolute d
        · rfl
        · exact absurd h hda
      have hdata : (cwd ++ "/" ++ (d ++ "/" ++ (name ++ "/" ++ ""))).data
          = (cwd ++ "/" ++ d).data ++ '/' :: (name.data ++ ['/']) := by
        simp [strdata_append, h0, hsl]
      simp only [jsResolve, List.foldr_cons, List.foldr_nil]
      simp only [resolveStep, if_neg hnn, if_neg hd0, hna, hdb, if_pos rfl, if_neg hcw]
      simp only [Bool.false_eq_true, if_false, Bool.not_true, hdata]
      simp [hc]

theorem jsResolve_abs_last (cwd d name : String) (hc : isAbsolute cwd = true)
    (hne : name.data ≠ []) (hns : ∀ c ∈ name.data, c ≠ '/')
    (h1 : name.data ≠ ['.']) (h2 : name.data ≠ ['.', '.']) :
    isAbsolute (jsResolve cwd [d, name]) = true ∧
    lastComponent (jsResolve cwd [d, name]) = name ∧
    ∃ s : List Char, (jsResolve cwd [d, name]).data = s ++ name.data := by
  have hnn : name ≠ "" := by
    intro h
    exact hne (by rw [h])
  have hna : isAbsolute name = false := by
    cases hd : name.data with
    | nil => exact absurd hd hne
    | cons c cs =>
      have hcne : c ≠ '/' := hns c (by rw [hd]; exact List.mem_cons_self c cs)
      simp [isAbsolute, hd, hcne]
  obtain ⟨P, hP⟩ := jsResolve_abs cwd d name hc hnn hna
  have hsplit : splitOnSlash (P.data ++ '/' :: (name.data ++ ['/']))
      = splitOnSlash P.data ++ ([name.data] ++ [[]]) := by
    rw [splitOnSlash_append]
    congr 1
    rw [show (name.data ++ ['/'] : List Char) = name.data ++ '/' :: [] from rfl,
      splitOnSlash_append, splitOnSlash_no_slash name.data hns]
    rfl
  have hsegs : (splitOnSlash (P.data ++ '/' :: (name.data ++ ['/']))).foldl (normStep false) []
      = (splitOnSlash P.data).foldl (normStep false) [] ++ [name.data] := by
    rw [hsplit, show splitOnSlash P.data ++ ([name.data] ++ [[]])
        = (splitOnSlash P.data ++ [name.data]) ++ [[]] from by simp,
      List.foldl_append,
      foldl_normStep_concat false (splitOnSlash P.data) [] name.data hne h1 h2]
    simp [normStep]
  rw [hP, hsegs]
  refine ⟨rfl, lastComponent_join_concat _ name.data hne hns, ?_⟩
  obtain ⟨s, hs⟩ := join_concat_suffix ((splitOnSlash P.data).foldl (normStep false) []) name.data
  exact ⟨s, hs⟩

/-! ### Facts about the last component, extname and basename -/

theorem lastComponent_no_slash (p : String) : ∀ c ∈ (lastComponent p).data, c ≠ '/' := by
  intro c hc
  have h1 : c ∈ ((p.data.reverse.dropWhile fun c => c = '/').takeWhile fun c => c ≠ '/') := by
    simpa [lastComponent] using hc
  have h2 := mem_takeWhile_pred _ c h1
  simpa using h2

theorem lastComponent_length_le (p : String) : (lastComponent p).length ≤ p.length := by
  show ((p.data.reverse.dropWhile fun c => c = '/').takeWhile fun c => c ≠ '/').reverse.length
      ≤ p.data.length
  rw [List.length_reverse]
  calc ((p.data.reverse.dropWhile fun c => c = '/').takeWhile fun c => c ≠ '/').length
      ≤ (p.data.reverse.dropWhile fun c => c = '/').length :=
        (List.takeWhile_sublist _).length_le
    _ ≤ p.data.reverse.length := (List.dropWhile_sublist _).length_le
    _ = p.data.length := List.length_reverse _

theorem basenameSuffix_chars (p suffix : String) :
    ∀ c ∈ (basenameSuffix p suffix).data, c ∈ (lastComponent p).data := by
  intro c hc
  simp only [basenameSuffix] at hc
  split_ifs at hc with h1 h2 h3
  · simp at hc
  · exact List.take_subset _ _ hc
  · exact hc
  · exact hc

theorem extname_shape (p : String) (h : extname p ≠ "") :
    ∃ tail : List Char, (extname p).data = '.' :: tail ∧
      (∀ c ∈ tail, c ≠ '.') ∧ (∀ c ∈ tail, c ≠ '/') := by
  simp only [extname] at h ⊢
  split_ifs at h ⊢ with hA hB hC
  · exact absurd rfl h
  · exact absurd rfl h
  · exact absurd rfl h
  · refine ⟨_, rfl, ?_, ?_⟩
    · intro c hc
      have h1 : c ∈ ((lastComponent p).data.reverse.takeWhile fun c => c ≠ '.') := by
        simpa using hc
      simpa using mem_takeWhile_pred _ c h1
    · intro c hc
      have h1 : c ∈ ((lastComponent p).data.reverse.takeWhile fun c => c ≠ '.') := by
        simpa using hc
      have h2 : c ∈ (lastComponent p).data.reverse := (List.takeWhile_sublist _).subset h1
      exact lastComponent_no_slash p c (by simpa using h2)

theorem strappend_assoc (a b c : String) : (a ++ b) ++ c = a ++ (b ++ c) :=
  strext (by simp [strdata_append])

theorem strempty_append (s : String) : "" ++ s = s :=
  strext (by simp [strdata_append])

theorem strappend_empty (s : String) : s ++ "" = s :=
  strext (by simp [strdata_append])

theorem ne_of_mem_not_mem {l m : List Char} {a : Char} (h : a ∈ l) (h2 : a ∉ m) : l ≠ m :=
  fun he => h2 (he ▸ h)

theorem mimeExt_cases (m : String) :
    getExtensionForMimeType m = ".png" ∨ getExtensionForMimeType m = ".jpg" ∨
    getExtensionForMimeType m = ".webp" ∨ getExtensionForMimeType m = ".gif" := by
  unfold getExtensionForMimeType
  split_ifs <;> simp

theorem mimeExt_shape (m : String) :
    ∃ tail : List Char, (getExtensionForMimeType m).data = '.' :: tail ∧ tail ≠ [] ∧
      (∀ c ∈ tail, c ≠ '.') ∧ (∀ c ∈ tail, c ≠ '/') ∧ (∀ c ∈ tail, c.isDigit = false) := by
  rcases mimeExt_cases m with h | h | h | h <;> rw [h]
  · exact ⟨['p', 'n', 'g'], rfl, by decide, by decide, by decide, by decide⟩
  · exact ⟨['j', 'p', 'g'], rfl, by decide, by decide, by decide, by decide⟩
  · exact ⟨['w', 'e', 'b', 'p'], rfl, by decide, by decide, by decide, by decide⟩
  · exact ⟨['g', 'i', 'f'], rfl, by decide, by decide, by decide, by decide⟩

theorem ext_dot_comp (p : String) (hx : extname p = ".") :
    ∃ rtail : List Char, rtail ≠ [] ∧ (lastComponent p).data = rtail.reverse ++ ['.']
      ∧ rtail ≠ ['.'] := by
  simp only [extname] at hx
  split_ifs at hx with hA hB hC
  · exact absurd hx (by decide)
  · exact absurd hx (by decide)
  · exact absurd hx (by decide)
  · have hdata : ('.' :: ((lastComponent p).data.reverse.takeWhile fun c => c ≠ '.').reverse
        : List Char) = ['.'] := congrArg String.data hx
    have hpre : ((lastComponent p).data.reverse.takeWhile fun c => c ≠ '.') = [] := by
      have h2 := (List.cons.inj hdata).2
      simpa using h2
    rw [hpre] at hA hB
    cases hrev : (lastComponent p).data.reverse with
    | nil => rw [hrev] at hA; simp at hA
    | cons r0 rtail =>
      have hr0 : r0 = '.' := by
        by_contra hne
        rw [hrev, List.takeWhile_cons_of_pos (by simpa using hne)] at hpre
        simp at hpre
      rw [hrev] at hB
      have hrt : rtail ≠ [] := by simpa using hB
      have hcomp : (lastComponent p).data = rtail.reverse ++ ['.'] := by
        have h3 := congrArg List.reverse hrev
        rw [List.reverse_reverse] at h3
        rw [h3, hr0]
        simp
      refine ⟨rtail, hrt, hcomp, ?_⟩
      intro he
      rw [he] at hcomp
      exact hC (by rw [hcomp]; rfl)

theorem base_of_ext_dot (p : String) (hx : extname p = ".") :
    (basenameSuffix p (extname p)).data ≠ [] ∧ (basenameSuffix p (extname p)).data ≠ ['.'] := by
  obtain ⟨rtail, hrt, hcomp, hrd⟩ := ext_dot_comp p hx
  rw [hx]
  have hlen : (lastComponent p).length = rtail.length + 1 := by
    show (lastComponent p).data.length = _
    rw [hcomp]
    simp
  have hlen2 : 2 ≤ (lastComponent p).length := by
    have := List.length_pos.mpr hrt
    omega
  have hplen : (("." : String)).length ≤ p.length := by
    have h1 := lastComponent_length_le p
    show 1 ≤ p.length
    omega
  have hpne : ("." : String) ≠ p := by
    intro he
    have hlc : lastComponent p = "." := by rw [← he]; decide
    rw [hlc] at hlen2
    exact absurd hlen2 (by decide)
  have hrevtake : (lastComponent p).data.reverse.take (("." : String)).length
      = (("." : String)).data.reverse := by
    rw [hcomp]
    simp [show (("." : String)).length = 1 from rfl]
  have hltlen : (("." : String)).length < (lastComponent p).length := by
    show 1 < (lastComponent p).length
    omega
  have hval : basenameSuffix p "." = ⟨(lastComponent p).data.take ((lastComponent p).length - 1)⟩ := by
    simp only [basenameSuffix]
    rw [if_pos ⟨by decide, hplen⟩, if_neg hpne, if_pos ⟨hrevtake, hltlen⟩]
    rfl
  rw [hval]
  have htake : (lastComponent p).data.take ((lastComponent p).length - 1) = rtail.reverse := by
    rw [hlen, hcomp, show rtail.length + 1 - 1 = rtail.reverse.length from by simp]
    exact List.take_left _ _
  show (lastComponent p).data.take ((lastComponent p).length - 1) ≠ [] ∧
      (lastComponent p).data.take ((lastComponent p).length - 1) ≠ ['.']
  rw [htake]
  constructor
  · simpa using hrt
  · intro h
    have := congrArg List.reverse h
    rw [List.reverse_reverse] at this
    exact hrd (by rw [this]; rfl)

theorem name_not_dots (b : List Char) (tail : List Char)
    (hb2 : tail = [] → b ≠ [] ∧ b ≠ ['.'])
    (htd : ∀ c ∈ tail, c ≠ '.') :
    b ++ '.' :: tail ≠ ['.'] ∧ b ++ '.' :: tail ≠ ['.', '.'] := by
  constructor
  · intro h
    have hlen := congrArg List.length h
    simp only [List.length_append, List.length_cons, List.length_singleton, List.length_nil] at hlen
    have hb0 : b = [] := List.length_eq_zero.mp (by omega)
    have ht0 : tail = [] := List.length_eq_zero.mp (by omega)
    exact (hb2 ht0).1 hb0
  · intro h
    have hlen := congrArg List.length h
    simp only [List.length_append, List.length_cons, List.length_singleton, List.length_nil] at hlen
    by_cases ht : tail = []
    · subst ht
      have hb := (List.append_inj' (show b ++ ['.'] = ['.'] ++ ['.'] from h) rfl).1
      exact (hb2 rfl).2 hb
    · have htl := List.length_pos.mpr ht
      have hb0 : b = [] := List.length_eq_zero.mp (by omega)
      subst hb0
      simp only [List.nil_append] at h
      have htl2 : tail = ['.'] := (List.cons.inj h).2
      exact (htd '.' (by rw [htl2]; simp)) rfl

theorem digitChar_isDigit (n : Nat) (h : n < 10) : (Nat.digitChar n).isDigit = true := by
  interval_cases n <;> decide

theorem toDigitsCore_digits : ∀ (fuel n : Nat) (ds : List Char),
    (∀ c ∈ ds, c.isDigit = true) → ∀ c ∈ Nat.toDigitsCore 10 fuel n ds, c.isDigit = true := by
  intro fuel
  induction fuel with
  | zero => intro n ds h c hc; exact h c (by simpa [Nat.toDigitsCore] using hc)
  | succ fuel ih =>
    intro n ds h c hc
    have hd : (Nat.digitChar (n % 10)).isDigit = true :=
      digitChar_isDigit _ (Nat.mod_lt _ (by norm_num))
    by_cases h0 : n / 10 = 0
    · rw [Nat.toDigitsCore] at hc
      simp only [h0, if_pos rfl] at hc
      rcases List.mem_cons.mp hc with h1 | h1
      · rw [h1]; exact hd
      · exact h c h1
    · rw [Nat.toDigitsCore] at hc
      simp only [h0, if_neg h0] at hc
      exact ih (n / 10) (Nat.digitChar (n % 10) :: ds)
        (fun x hx => by
          rcases List.mem_cons.mp hx with h1 | h1
          · rw [h1]; exact hd
          · exact h x h1) c hc

theorem repr_digits (n : Nat) : ∀ c ∈ (Nat.repr n).data, c.isDigit = true := by
  intro c hc
  have hrepr : (Nat.repr n).data = Nat.toDigitsCore 10 (n + 1) n [] := rfl
  rw [hrepr] at hc
  exact toDigitsCore_digits (n + 1) n [] (by simp) c hc

theorem digit_ne_slash {c : Char} (h : c.isDigit = true) : c ≠ '/' := by
  intro he; rw [he] at h; exact absurd h (by decide)

theorem digit_ne_dot {c : Char} (h : c.isDigit = true) : c ≠ '.' := by
  intro he; rw [he] at h; exact absurd h (by decide)

theorem good_name_user (opv mime : String) :
    ∃ tail : List Char,
      (if extname opv ≠ "" then extname opv else getExtensionForMimeType mime).data
        = '.' :: tail ∧
      (∀ c ∈ tail, c ≠ '.') ∧ (∀ c ∈ tail, c ≠ '/') ∧
      (tail = [] → (basenameSuffix opv (extname opv)).data ≠ []
        ∧ (basenameSuffix opv (extname opv)).data ≠ ['.']) := by
  by_cases hx : extname opv = ""
  · rw [if_neg (by simpa using hx)]
    obtain ⟨tail, hd, hne, hnd, hns, _⟩ := mimeExt_shape mime
    exact ⟨tail, hd, hnd, hns, fun ht => absurd ht hne⟩
  · rw [if_pos hx]
    obtain ⟨tail, hd, hnd, hns⟩ := extname_shape opv hx
    refine ⟨tail, hd, hnd, hns, fun ht => ?_⟩
    have hxd : extname opv = "." := strext (by rw [hd, ht])
    exact base_of_ext_dot opv hxd

theorem append3_no_slash (a b c : String)
    (ha : ∀ x ∈ a.data, x ≠ '/') (hb : ∀ x ∈ b.data, x ≠ '/') (hc : ∀ x ∈ c.data, x ≠ '/') :
    ∀ x ∈ (a ++ b ++ c).data, x ≠ '/' := by
  intro x hx
  rw [strdata_append, strdata_append] at hx
  rcases List.mem_append.mp hx with h | h
  · rcases List.mem_append.mp h with h2 | h2
    · exact ha x h2
    · exact hb x h2
  · exact hc x h

theorem repr_no_slash (n : Nat) : ∀ c ∈ (Nat.repr n).data, c ≠ '/' :=
  fun c hc => digit_ne_slash (repr_digits n c hc)

theorem namer_resolve (cwd d pre ext : String) (hc : isAbsolute cwd = true)
    (tail : List Char) (htd : ext.data = '.' :: tail)
    (htnd : ∀ c ∈ tail, c ≠ '.') (htns : ∀ c ∈ tail, c ≠ '/')
    (hpre_ns : ∀ c ∈ pre.data, c ≠ '/')
    (hb : tail = [] → pre.data ≠ [] ∧ pre.data ≠ ['.']) :
    isAbsolute (jsResolve cwd [d, pre ++ ext]) = true ∧
    lastComponent (jsResolve cwd [d, pre ++ ext]) = pre ++ ext ∧
    ∃ s : String, jsResolve cwd [d, pre ++ ext] = s ++ ext := by
  have hne : (pre ++ ext).data ≠ [] := by rw [strdata_append, htd]; simp
  have hns : ∀ x ∈ (pre ++ ext).data, x ≠ '/' := by
    intro x hx
    rw [strdata_append] at hx
    rcases List.mem_append.mp hx with h | h
    · exact hpre_ns x h
    · rw [htd] at h
      rcases List.mem_cons.mp h with h2 | h2
      · rw [h2]; decide
      · exact htns x h2
  have hdots : (pre ++ ext).data ≠ ['.'] ∧ (pre ++ ext).data ≠ ['.', '.'] := by
    rw [strdata_append, htd]
    exact name_not_dots pre.data tail hb htnd
  obtain ⟨h1, h2, s, h3⟩ :=
    jsResolve_abs_last cwd d (pre ++ ext) hc hne hns hdots.1 hdots.2
  refine ⟨h1, h2, ⟨s ++ pre.data⟩, ?_⟩
  apply strext
  rw [strdata_append, h3, strdata_append]
  show s ++ (pre.data ++ ext.data) = (s ++ pre.data) ++ ext.data
  rw [List.append_assoc]

theorem namer_shape (cwd : String) (t : Nat) (op : Option String) (index : Nat) (mime : String)
    (hc : isAbsolute cwd = true) :
    isAbsolute (generateOutputFilename cwd t op index mime) = true ∧
    lastComponent (generateOutputFilename cwd t op index mime)
      = namerBase t op ++ ((if index = 0 then "" else "_" ++ Nat.repr (index + 1))
          ++ namerExt op mime) ∧
    ∃ s : String, generateOutputFilename cwd t op index mime = s ++ namerExt op mime := by
  have hemp : (("" : String)).data = ([] : List Char) := rfl
  by_cases hop : strTruthy op = true
  · obtain ⟨opv, rfl⟩ : ∃ s, op = some s := by
      cases op with
      | none => simp [strTruthy] at hop
      | some s => exact ⟨s, rfl⟩
    have hnb : namerBase t (some opv) = basenameSuffix opv (extname opv) := by
      simp [namerBase, hop]
    have hnx : namerExt (some opv) mime
        = (if extname opv ≠ "" then extname opv else getExtensionForMimeType mime) := by
      simp only [namerExt, hop, if_pos rfl]
      rfl
    obtain ⟨tail, htd, htnd, htns, htb⟩ := good_name_user opv mime
    have hbase_ns : ∀ x ∈ (basenameSuffix opv (extname opv)).data, x ≠ '/' :=
      fun x hx => lastComponent_no_slash opv x (basenameSuffix_chars opv (extname opv) x hx)
    by_cases hi : index = 0
    · subst hi
      have hgen : generateOutputFilename cwd t (some opv) 0 mime
          = jsResolve cwd [dirname opv,
              basenameSuffix opv (extname opv)
                ++ (if extname opv ≠ "" then extname opv else getExtensionForMimeType mime)] := by
        simp [generateOutputFilename, hop]
      obtain ⟨h1, h2, h3⟩ := namer_resolve cwd (dirname opv)
        (basenameSuffix opv (extname opv))
        (if extname opv ≠ "" then extname opv else getExtensionForMimeType mime)
        hc tail htd htnd htns hbase_ns htb
      rw [hgen, hnb, hnx]
      refine ⟨h1, ?_, h3⟩
      rw [h2, if_pos rfl, strempty_append]
    · have hgen : generateOutputFilename cwd t (some opv) index mime
          = jsResolve cwd [dirname opv,
              basenameSuffix opv (extname opv) ++ "_" ++ Nat.repr (index + 1)
                ++ (if extname opv ≠ "" then extname opv else getExtensionForMimeType mime)] := by
        simp [generateOutputFilename, hop, hi]
      have hpre_ns : ∀ x ∈ (basenameSuffix opv (extname opv) ++ "_"
          ++ Nat.repr (index + 1)).data, x ≠ '/' :=
        append3_no_slash _ _ _ hbase_ns (by decide) (repr_no_slash _)
      have hmem : '_' ∈ (basenameSuffix opv (extname opv) ++ "_"
          ++ Nat.repr (index + 1)).data := by
        rw [strdata_append, strdata_append]
        exact List.mem_append_left _ (List.mem_append_right _ (by decide))
      obtain ⟨h1, h2, h3⟩ := namer_resolve cwd (dirname opv)
        (basenameSuffix opv (extname opv) ++ "_" ++ Nat.repr (index + 1))
        (if extname opv ≠ "" then extname opv else getExtensionForMimeType mime)
        hc tail htd htnd htns hpre_ns
        (fun _ => ⟨fun he => by rw [he] at hmem; simp at hmem,
                   ne_of_mem_not_mem hmem (by decide)⟩)
      rw [hgen, hnb, hnx]
      refine ⟨h1, ?_, h3⟩
      rw [h2, if_neg hi]
      apply strext
      simp [strdata_append]
  · have hopf : strTruthy op = false := by
      cases h : strTruthy op
      · rfl
      · exact absurd h hop
    have hnb : namerBase t op = "generated_" ++ Nat.repr t := by
      simp [namerBase, hopf]
    have hnx : namerExt op mime = getExtensionForMimeType mime := by
      simp [namerExt, hopf]
    obtain ⟨tail, htd, htne, htnd, htns, _⟩ := mimeExt_shape mime
    have hglit : ∀ x ∈ (("generated_" : String)).data, x ≠ '/' := by decide
    have hgns : ∀ x ∈ ("generated_" ++ Nat.repr t).data, x ≠ '/' := by
      intro x hx
      rw [strdata_append] at hx
      rcases List.mem_append.mp hx with h | h
      · exact hglit x h
      · exact repr_no_slash t x h
    have hgmem : '_' ∈ ("generated_" ++ Nat.repr t).data := by
      rw [strdata_append]
      exact List.mem_append_left _ (by decide)
    by_cases hi : index = 0
    · subst hi
      have hgen : generateOutputFilename cwd t op 0 mime
          = jsResolve cwd [cwd, "generated_" ++ Nat.repr t ++ getExtensionForMimeType mime] := by
        simp [generateOutputFilename, hopf]
      obtain ⟨h1, h2, h3⟩ := namer_resolve cwd cwd
        ("generated_" ++ Nat.repr t) (getExtensionForMimeType mime)
        hc tail htd htnd htns hgns (fun ht => absurd ht htne)
      rw [hgen, hnb, hnx]
      refine ⟨h1, ?_, h3⟩
      rw [h2, if_pos rfl, strempty_append]
    · have hgen : generateOutputFilename cwd t op index mime
          = jsResolve cwd [cwd, "generated_" ++ Nat.repr t ++ "_" ++ Nat.repr (index + 1)
              ++ getExtensionForMimeType mime] := by
        simp [generateOutputFilename, hopf, hi]
      have hpre_ns : ∀ x ∈ ("generated_" ++ Nat.repr t ++ "_"
          ++ Nat.repr (index + 1)).data, x ≠ '/' :=
        append3_no_slash _ _ _ hgns (by decide) (repr_no_slash _)
      have hmem2 : '_' ∈ ("generated_" ++ Nat.repr t ++ "_" ++ Nat.repr (index + 1)).data := by
        rw [strdata_append, strdata_append]
        exact List.mem_append_left _ (List.mem_append_right _ (by decide))
      obtain ⟨h1, h2, h3⟩ := namer_resolve cwd cwd
        ("generated_" ++ Nat.repr t ++ "_" ++ Nat.repr (index + 1))
        (getExtensionForMimeType mime)
        hc tail htd htnd htns hpre_ns
        (fun _ => ⟨fun he => by rw [he] at hmem2; simp at hmem2,
                   ne_of_mem_not_mem hmem2 (by decide)⟩)
      rw [hgen, hnb, hnx]
      refine ⟨h1, ?_, h3⟩
      rw [h2, if_neg hi]
      apply strext
      simp [strdata_append]

/-- C6: for every optional user output path, zero-based index and MIME
type, the Artifact Namer returns an absolute path whose final component is
the base name followed, for index 0, by nothing, and, for index at least
1, by the suffix underscore-(index+1), inserted before the extension. -/
theorem c6_namer_paths (cwd : String) (t : Nat) (outputPath : Option String) (index : Nat)
    (mime : String) (hc : isAbsolute cwd = true) :
    isAbsolute (generateOutputFilename cwd t outputPath index mime) = true ∧
    lastComponent (generateOutputFilename cwd t outputPath index mime)
      = namerBase t outputPath ++ ((if index = 0 then "" else "_" ++ Nat.repr (index + 1))
          ++ namerExt outputPath mime) :=
  ⟨(namer_shape cwd t outputPath index mime hc).1,
   (namer_shape cwd t outputPath index mime hc).2.1⟩

/-- C6 (witness): the theorem applied at a concrete user path and index 1. -/
theorem c6_namer_paths_witness :
    isAbsolute (generateOutputFilename "/w" 55 (some "out.jpg") 1 "image/png") = true ∧
    lastComponent (generateOutputFilename "/w" 55 (some "out.jpg") 1 "image/png")
      = namerBase 55 (some "out.jpg") ++ ((if (1 : Nat) = 0 then "" else "_" ++ Nat.repr (1 + 1))
          ++ namerExt (some "out.jpg") "image/png") :=
  c6_namer_paths "/w" 55 (some "out.jpg") 1 "image/png" (by decide)

/-- C7: with a truthy user output path the Artifact Namer is deterministic
(the clock sample is unused: two calls with identical arguments but
different clock values yield identical paths), and the extension of the
result is the user path's own extension when it has one, else the
MIME-implied extension. -/
theorem c7_user_path_determinism (cwd up : String) (t1 t2 : Nat) (index : Nat) (mime : String)
    (hup : up ≠ "") (hc : isAbsolute cwd = true) :
    generateOutputFilename cwd t1 (some up) index mime
      = generateOutputFilename cwd t2 (some up) index mime ∧
    ∃ s : String, generateOutputFilename cwd t1 (some up) index mime
      = s ++ (if extname up ≠ "" then extname up else getExtensionForMimeType mime) := by
  constructor
  · simp [generateOutputFilename, strTruthy, hup]
  · have h := (namer_shape cwd t1 (some up) index mime hc).2.2
    have hnx : namerExt (some up) mime
        = (if extname up ≠ "" then extname up else getExtensionForMimeType mime) := by
      simp only [namerExt, strTruthy]
      rw [if_pos (by simpa using hup)]
      rfl
    rwa [hnx] at h

/-- C7 (witness): userPath "out.jpg" with MIME image/png, two different
clock samples. -/
theorem c7_user_path_determinism_witness :
    (generateOutputFilename "/w" 0 (some "out.jpg") 0 "image/png"
      = generateOutputFilename "/w" 1 (some "out.jpg") 0 "image/png") ∧
    ∃ s : String, generateOutputFilename "/w" 0 (some "out.jpg") 0 "image/png"
      = s ++ (if extname "out.jpg" ≠ "" then extname "out.jpg"
              else getExtensionForMimeType "image/png") :=
  c7_user_path_determinism "/w" "out.jpg" 0 1 0 "image/png" (by decide) (by decide)

/-- C2 (counterexample to the claim as stated): when the clock advances
between the two namer calls of one batch, the embedded timestamps differ —
the timestamp is re-sampled inside every call, not captured once per
invocation. -/
theorem c2_shared_timestamp_counterexample :
    timestampComponent (generateOutputFilename "/w" 1000 none 0 "image/png")
      ≠ timestampComponent (generateOutputFilename "/w" 1001 none 1 "image/png") ∧
    timestampComponent (generateOutputFilename "/w" 1000 none 0 "image/png") = "1000" ∧
    timestampComponent (generateOutputFilename "/w" 1001 none 1 "image/png") = "1001" :=
  ⟨by decide, by decide, by decide⟩

/-- C2 (amended): the Artifact Namer samples the clock inside each call;
the timestamp component of a generated path is exactly the decimal
rendering of that call's clock sample, so the images of a batch share one
timestamp only when the clock does not advance between their namer calls
(two calls with the same sample agree, for any indices and MIME types). -/
theorem c2_per_call_timestamp (cwd : String) (t : Nat) (i j : Nat) (mime mime' : String)
    (hc : isAbsolute cwd = true) :
    timestampComponent (generateOutputFilename cwd t none i mime) = Nat.repr t ∧
    timestampComponent (generateOutputFilename cwd t none i mime)
      = timestampComponent (generateOutputFilename cwd t none j mime') := by
  have key : ∀ (k : Nat) (m : String),
      timestampComponent (generateOutputFilename cwd t none k m) = Nat.repr t := by
    intro k m
    have h2 := (namer_shape cwd t none k m hc).2.1
    have hnb : namerBase t none = "generated_" ++ Nat.repr t := by simp [namerBase, strTruthy]
    have hnx : namerExt none m = getExtensionForMimeType m := by simp [namerExt, strTruthy]
    rw [hnb, hnx] at h2
    unfold timestampComponent
    rw [h2]
    apply strext
    have hd : ("generated_" ++ Nat.repr t
          ++ ((if k = 0 then "" else "_" ++ Nat.repr (k + 1)) ++ getExtensionForMimeType m)).data
        = (("generated_" : String)).data ++ ((Nat.repr t).data
          ++ ((if k = 0 then "" else "_" ++ Nat.repr (k + 1)) ++ getExtensionForMimeType m).data) := by
      rw [strdata_append, strdata_append, List.append_assoc]
    show ((("generated_" ++ Nat.repr t
        ++ ((if k = 0 then "" else "_" ++ Nat.repr (k + 1)) ++ getExtensionForMimeType m)).data).drop
          10).takeWhile (fun c => c.isDigit) = (Nat.repr t).data
    rw [hd, List.drop_left' (by decide)]
    have hrest : ∃ y ys, ((if k = 0 then "" else "_" ++ Nat.repr (k + 1))
        ++ getExtensionForMimeType m).data = y :: ys ∧ y.isDigit = false := by
      by_cases hk : k = 0
      · rw [if_pos hk, strempty_append]
        obtain ⟨tail, htd, _, _, _, _⟩ := mimeExt_shape m
        exact ⟨'.', tail, htd, by decide⟩
      · rw [if_neg hk, strdata_append]
        refine ⟨'_', (Nat.repr (k + 1)).data ++ (getExtensionForMimeType m).data, ?_, by decide⟩
        rw [strdata_append]
        rfl
    obtain ⟨y, ys, hys, hyd⟩ := hrest
    rw [hys, takeWhile_append_stop (Nat.repr t).data y ys (repr_digits t) hyd]
  exact ⟨key i mime, (key i mime).trans (key j mime').symm⟩

/-- C2 (witness): equal clock samples at indices 0 and 1 share the
timestamp component. -/
theorem c2_per_call_timestamp_witness :
    timestampComponent (generateOutputFilename "/w" 77 none 0 "image/png") = Nat.repr 77 ∧
    timestampComponent (generateOutputFilename "/w" 77 none 0 "image/png")
      = timestampComponent (generateOutputFilename "/w" 77 none 1 "image/jpeg") :=
  c2_per_call_timestamp "/w" 77 0 1 "image/png" "image/jpeg" (by decide)

theorem success_of_images_some {ok : Bool} {status : Nat} {stext : String}
    {data : GenerateContentResponse} {imgs : List ImageArtifact}
    (h : (interpretResponse ok status stext data).images = some imgs) :
    (interpretResponse ok status stext data).success = true := by
  cases ok with
  | false => simp [interpretResponse] at h
  | true =>
    cases hbt : blockTruthy data with
    | true => simp [interpretResponse, hbt] at h
    | false =>
      have hr : interpretResponse true status stext data = interpretCandidates data := by
        simp [interpretResponse, hbt]
      rw [hr] at h ⊢
      cases hc : data.candidates with
      | none => simp [interpretCandidates, hc, noCandidatesResult] at h
      | some cands =>
        cases cands with
        | nil => simp [interpretCandidates, hc, noCandidatesResult] at h
        | cons c cs =>
          simp only [interpretCandidates, hc] at h ⊢
          by_cases hl : (scanResponse (c :: cs)).1.length = 0
          · simp [hl] at h
          · simp [hl]

/-- C10: on a successful result, the MCP tool handlers persist exactly the
first image (one file, named from the first image's MIME type; images at
index one and beyond are discarded), while the CLI orchestrator writes
every returned image, one path per image in order. -/
theorem c10_mcp_first_image_cli_all
    (cwd : String) (now : Nat) (k prompt : String) (output : Option String)
    (model : Option String) (aspectRatio : Option AspectRatio) (size : Option ImageSize)
    (inputPath : String) (readImage : String → Option InputImage) (ii : InputImage)
    (f : FetchOutcome) (env : RunEnv) (o : CLIOptions)
    (imgs : List ImageArtifact) (img0 : ImageArtifact) (rest : List ImageArtifact)
    (hk : k ≠ "")
    (hgen : (interpretResponse f.ok f.status f.statusText f.data).images = some imgs)
    (himgs : imgs = img0 :: rest)
    (hri : readImage inputPath = some ii)
    (henvf : env.fetch = f)
    (hok : validateApiKey (jsOrKey o.key env.envKey) = none)
    (hvo : validateOptions o = none)
    (hni : o.image = none) :
    handleGenerateImageModel cwd now (some k) prompt output model aspectRatio size f
      = { wrote := [generateOutputPathMcp cwd now output img0.mimeType], isError := false } ∧
    handleModifyImageModel cwd now (some k) prompt inputPath output model readImage f
      = { wrote := [generateOutputPathMcp cwd now output img0.mimeType], isError := false } ∧
    (runModel env o).savedPaths
      = imgs.enum.map (fun p =>
          generateOutputFilename env.cwd (env.clock p.1) o.output p.1 p.2.mimeType) ∧
    (runModel env o).savedPaths.length = imgs.length := by
  subst himgs
  have hsucc := success_of_images_some hgen
  have hmap : (runModel env o).savedPaths
      = (img0 :: rest).enum.map (fun p =>
          generateOutputFilename env.cwd (env.clock p.1) o.output p.1 p.2.mimeType) := by
    simp only [runModel, hok, hvo, hni, henvf, generateImageModel]
    simp [hsucc, hgen]
  refine ⟨?_, ?_, hmap, ?_⟩
  · simp only [handleGenerateImageModel, getApiKeyMcp, hk, if_pos, generateImageModel]
    simp [hk, hsucc, hgen]
  · simp only [handleModifyImageModel, getApiKeyMcp, hri, generateImageModel]
    simp [hk, hri, hsucc, hgen]
  · rw [hmap]
    simp

/-- C10 (witness): a concrete two-image response; each handler writes one
file named from the first image, the CLI run writes two. -/
theorem c10_mcp_first_image_cli_all_witness :
    handleGenerateImageModel "/w" 5 (some "0123456789A") "p" none none none none twoImageFetch
      = { wrote := [generateOutputPathMcp "/w" 5 none "image/png"], isError := false } ∧
    handleModifyImageModel "/w" 5 (some "0123456789A") "p" "in.png" none none
        (fun _ => some ⟨"QUFB", "image/png"⟩) twoImageFetch
      = { wrote := [generateOutputPathMcp "/w" 5 none "image/png"], isError := false } ∧
    (runModel twoImageEnv plainOptions).savedPaths
      = (([⟨⟨"QUFB"⟩, "image/png"⟩, ⟨⟨"QkJC"⟩, "image/jpeg"⟩] : List ImageArtifact).enum.map
          (fun p => generateOutputFilename twoImageEnv.cwd (twoImageEnv.clock p.1)
            plainOptions.output p.1 p.2.mimeType)) ∧
    (runModel twoImageEnv plainOptions).savedPaths.length
      = ([⟨⟨"QUFB"⟩, "image/png"⟩, ⟨⟨"QkJC"⟩, "image/jpeg"⟩] : List ImageArtifact).length :=
  c10_mcp_first_image_cli_all "/w" 5 "0123456789A" "p" none none none none "in.png"
    (fun _ => some ⟨"QUFB", "image/png"⟩) ⟨"QUFB", "image/png"⟩ twoImageFetch twoImageEnv
    plainOptions [⟨⟨"QUFB"⟩, "image/png"⟩, ⟨⟨"QkJC"⟩, "image/jpeg"⟩] ⟨⟨"QUFB"⟩, "image/png"⟩
    [⟨⟨"QkJC"⟩, "image/jpeg"⟩] (by decide) (by decide) rfl rfl rfl (by decide) (by decide) rfl

end BananaCli
